import Mathlib

/-!
# Trojan outbound adapter (`adapter/outbound/trojan_mc.go`)

A shallow embedding of the `TrojanMC` adapter: the constructor `NewTrojanMC`, the transport
negotiation `plainStream` / `StreamConnContext`, and the dial operations `DialContext`,
`DialContextWithDialer`, `ListenPacketContext`, `ListenPacketWithDialer`,
`ListenPacketOnStreamConn`.

The adapter is effectful code.  Every call it makes to a collaborator outside the file (the
dialer, the `gun` and `trojan` transports, the TLS helpers) is recorded, with its arguments and
its result, as an `Event`; an operation returns its Go results (`ret`, `err`), the adapter as the
call leaves it (the receiver is a pointer and `StreamConnContext` assigns to `t.option`), and the
list of events in program order.  What the collaborators answer is given by an `Env`, over which
all theorems quantify.
-/

set_option autoImplicit false

/-! ## Go values -/

/-- A non-nil Go `error`, identified with its message. -/
abbrev GoError := String

/-- A non-nil `net.Conn`, identified by a handle. -/
abbrev NetConn := Nat

/-- Result of a collaborator of type `func(...) (net.Conn, error)` or `(*T, error)`: either the
error is nil and a value is returned, or the error is non-nil (the adapter then never looks at the
value). -/
inductive Result (α : Type) where
  | ok (v : α)
  | error (err : GoError)
  deriving DecidableEq, Repr

/-- Go `len(s)` of a string: its number of bytes. -/
def len (s : String) : Nat := s.utf8ByteSize

/-- Go `strconv.Itoa`. -/
def Itoa (i : Int) : String := toString i

/-! ## Package `constant` (imported as `C`) -/

/-- The network of a dial target, `C.NetWork`. -/
inductive C.NetWork where
  | TCP
  | UDP
  | ALLNet
  deriving DecidableEq, Repr

/-- The dial target, `C.Metadata`: the adapter reads `NetWork` itself and hands the rest to
`serializesSocksAddr`. -/
structure C.Metadata where
  NetWork : C.NetWork
  Host : String
  DstPort : Nat
  deriving DecidableEq, Repr

/-! ## Package `dialer` -/

/-- A per-call dial override, `dialer.Option`. -/
inductive dialer.DialOption where
  | WithInterface (name : String)
  | WithRoutingMark (mark : Int)
  | WithTFO (tfo : Bool)
  | WithMPTCP (mpTcp : Bool)
  deriving DecidableEq, Repr

/-- A `dialer.Dialer`: the options it was built from. -/
structure dialer.Dialer where
  opts : List dialer.DialOption
  deriving DecidableEq, Repr

/-- Go `dialer.NewDialer(opts...)`. -/
def dialer.NewDialer (opts : List dialer.DialOption) : dialer.Dialer := ⟨opts⟩

/-! ## Packages `tls`, `tlsC`, `gun`, `trojan`, `http` -/

/-- The fields of `tls.Config` that `NewTrojanMC` sets. -/
structure tls.Config where
  NextProtos : List String
  MinVersion : Nat
  InsecureSkipVerify : Bool
  ServerName : String
  deriving DecidableEq, Repr

/-- Go `tls.VersionTLS12`. -/
def tls.VersionTLS12 : Nat := 0x0303

/-- Parsed anti-detection key-exchange parameters, `tlsC.RealityConfig`. -/
structure tlsC.RealityConfig where
  PublicKey : String
  ShortID : String
  deriving DecidableEq, Repr

/-- The `reality-opts` of an endpoint, `RealityOptions`. -/
structure RealityOptions where
  PublicKey : String
  ShortID : String
  deriving DecidableEq, Repr

/-- Go `gun.Config`. -/
structure gun.Config where
  ServiceName : String
  Host : String
  deriving DecidableEq, Repr

/-- The shared multiplexed session, `gun.TransportWrap`, as `gun.NewHTTP2Client` is given it in
`NewTrojanMC`.  Its `dialFn` closure (a dial to `t.addr` with `t.Base.DialOptions()`) belongs to
the session and is run by the `gun` package, not by the adapter. -/
structure gun.TransportWrap where
  tlsConfig : tls.Config
  clientFingerprint : String
  realityConfig : Option tlsC.RealityConfig
  deriving DecidableEq, Repr

/-- Go `trojan.Command`. -/
inductive trojan.Command where
  | CommandTCP
  | CommandUDP
  deriving DecidableEq, Repr

/-- Modelled from the spec: the byte values of the `trojan.Command` constants (package
`transport/trojan` is not among the sources): `0x01` = STREAM, `0x03` = DATAGRAM-ASSOCIATE. -/
def trojan.Command.toByte : trojan.Command → Nat
  | .CommandTCP => 0x01
  | .CommandUDP => 0x03

/-- Go `trojan.Option` (renamed: the name `Option` is taken). -/
structure trojan.TrojanOption where
  Password : String
  ALPN : List String
  ServerName : String
  SkipCertVerify : Bool
  Fingerprint : String
  ClientFingerprint : String
  Reality : Option tlsC.RealityConfig
  deriving DecidableEq, Repr

/-- Go `*trojan.Trojan`, as `trojan.New(tOption)` builds it: a holder of the pointer `tOption`. -/
structure trojan.Trojan where
  option : trojan.TrojanOption
  deriving DecidableEq, Repr

/-- Go `trojan.New`. -/
def trojan.New (option : trojan.TrojanOption) : trojan.Trojan := ⟨option⟩

/-- Go `http.Header`, a `map[string][]string`, as an association list. -/
abbrev http.Header := List (String × List String)

/-- Go `http.Header.Add(key, value)`: append `value` to the values stored under the canonical form
of `key`.  `canon` is `textproto.CanonicalMIMEHeaderKey`. -/
def http.Header.Add (canon : String → String) (h : http.Header) (key value : String) :
    http.Header :=
  match h.lookup (canon key) with
  | some vs => (canon key, vs ++ [value]) :: h.filter (fun kv => kv.1 != canon key)
  | none => (canon key, [value]) :: h

/-- Go `http.Header.Values(key)`: the values stored under the canonical form of `key`. -/
def http.Header.Values (canon : String → String) (h : http.Header) (key : String) : List String :=
  (h.lookup (canon key)).getD []

/-- Go `trojan.WebsocketOption`. -/
structure trojan.WebsocketOption where
  Host : String
  Port : String
  Path : String
  Headers : http.Header
  V2rayHttpUpgrade : Bool
  V2rayHttpUpgradeFastOpen : Bool
  deriving DecidableEq, Repr

/-! ## Package `outbound`: the data model -/

/-- The fields of `BasicOption` that `NewTrojanMC` reads. -/
structure BasicOption where
  Interface : String
  RoutingMark : Int
  TFO : Bool
  MPTCP : Bool
  deriving DecidableEq, Repr

/-- Go `GrpcOptions`. -/
structure GrpcOptions where
  GrpcServiceName : String
  deriving DecidableEq, Repr

/-- Go `WSOptionsMC`; `Headers` is a `map[string]string`, given as the list of its entries in the
order in which `range` visits them. -/
structure WSOptionsMC where
  Path : String
  Headers : List (String × String)
  V2rayHttpUpgrade : Bool
  V2rayHttpUpgradeFastOpen : Bool
  deriving DecidableEq, Repr

/-- Go `TrojanOptionMC`. -/
structure TrojanOptionMC extends BasicOption where
  Name : String
  Server : String
  Port : Int
  Password : String
  ALPN : List String
  SNI : String
  SkipCertVerify : Bool
  Fingerprint : String
  UDP : Bool
  Network : String
  RealityOpts : RealityOptions
  GrpcOpts : GrpcOptions
  WSOpts : WSOptionsMC
  ClientFingerprint : String
  deriving DecidableEq, Repr

/-- Go `C.AdapterType`; `NewTrojanMC` uses `C.Trojan`. -/
inductive C.AdapterType where
  | Trojan
  deriving DecidableEq, Repr

/-- The fields of `Base` that `NewTrojanMC` sets. -/
structure Base where
  name : String
  addr : String
  tp : C.AdapterType
  udp : Bool
  tfo : Bool
  mpTcp : Bool
  iface : String
  rmark : Int
  deriving DecidableEq, Repr

/-- Go `TrojanMC`.  Pointer fields that may be nil are options; `inst` is the field `instance`. -/
structure TrojanMC extends Base where
  inst : trojan.Trojan
  option : TrojanOptionMC
  gunTLSConfig : Option tls.Config
  gunConfig : Option gun.Config
  transport : Option gun.TransportWrap
  realityConfig : Option tlsC.RealityConfig
  deriving DecidableEq, Repr

/-- The `C.Conn` that `NewConn(c, t)` returns: the stream it wraps (`none` is a nil `net.Conn`)
and the adapter it names. -/
structure Conn where
  stream : Option NetConn
  adapter : String
  deriving DecidableEq, Repr

/-- Go `NewConn`. -/
def NewConn (c : Option NetConn) (t : TrojanMC) : Conn := ⟨c, t.name⟩

/-- The `net.PacketConn` that `t.instance.PacketConn(c)` returns: the packet connection wrapper
around the stream `c`. -/
structure trojan.PacketConn where
  stream : Option NetConn
  deriving DecidableEq, Repr

/-- Go `(*trojan.Trojan).PacketConn`. -/
def trojan.Trojan.PacketConn (_inst : trojan.Trojan) (c : Option NetConn) : trojan.PacketConn :=
  ⟨c⟩

/-- The `C.PacketConn` that `newPacketConn(pc, t)` returns. -/
structure PacketConn where
  pc : trojan.PacketConn
  adapter : String
  deriving DecidableEq, Repr

/-- Go `newPacketConn`. -/
def newPacketConn (pc : trojan.PacketConn) (t : TrojanMC) : PacketConn := ⟨pc, t.name⟩

/-! ## Effects -/

/-- One call of the adapter to a collaborator, with its arguments and what it answered. -/
inductive Event where
  /-- Go `gun.StreamGunWithTransport(transport, cfg)`: open a virtual stream on the session. -/
  | StreamGunWithTransport (transport : gun.TransportWrap) (cfg : Option gun.Config)
      (res : Result NetConn)
  /-- Go `dialer.DialContext(ctx, network, address)`: a TCP dial. -/
  | DialContext (dialer : dialer.Dialer) (network address : String) (res : Result NetConn)
  /-- Go `tcpKeepAlive(c)`. -/
  | tcpKeepAlive (c : NetConn)
  /-- Go `gun.StreamGunWithConn(c, tlsConfig, cfg, realityConfig)`: gun negotiation over `c`. -/
  | StreamGunWithConn (c : NetConn) (tlsConfig : Option tls.Config) (cfg : Option gun.Config)
      (realityConfig : Option tlsC.RealityConfig) (res : Result NetConn)
  /-- Go `t.instance.StreamConn(ctx, c)`: TLS client handshake over `c`. -/
  | StreamConn (inst : trojan.Trojan) (c : NetConn) (res : Result NetConn)
  /-- Go `t.instance.StreamWebsocketConn(ctx, c, wsOpts)`: TLS and WebSocket upgrade over `c`. -/
  | StreamWebsocketConn (inst : trojan.Trojan) (c : NetConn) (wsOpts : trojan.WebsocketOption)
      (res : Result NetConn)
  /-- Go `t.instance.WriteHeader(c, command, socks5Addr)`; `res` is the error, `none` for nil. -/
  | WriteHeader (c : NetConn) (command : trojan.Command) (socks5Addr : List Nat)
      (res : Option GoError)
  /-- Go `c.Close()`. -/
  | Close (c : NetConn)
  deriving DecidableEq, Repr

/-- The collaborators of the adapter: what each call outside the file answers. -/
structure Env where
  /-- Go `tlsC.HaveGlobalFingerprint()`, the process-wide default as it stands. -/
  HaveGlobalFingerprint : Bool
  /-- Go `tlsC.GetGlobalFingerprint()`. -/
  GetGlobalFingerprint : String
  /-- Go `net.JoinHostPort`. -/
  JoinHostPort : String → String → String
  /-- Go `net.SplitHostPort`, as the pair `(host, port)` (the error is dropped by the caller). -/
  SplitHostPort : String → String × String
  /-- Go `textproto.CanonicalMIMEHeaderKey`. -/
  CanonicalMIMEHeaderKey : String → String
  /-- Go `serializesSocksAddr`. -/
  serializesSocksAddr : C.Metadata → List Nat
  /-- Go `(*Base).DialOptions(opts...)`. -/
  DialOptions : Base → List dialer.DialOption → List dialer.DialOption
  /-- Go `RealityOptions.Parse()`; the config pointer may be nil without an error. -/
  Parse : RealityOptions → Result (Option tlsC.RealityConfig)
  /-- Go `ca.GetSpecifiedFingerprintTLSConfig(tlsConfig, fingerprint)`. -/
  GetSpecifiedFingerprintTLSConfig : tls.Config → String → Result tls.Config
  /-- Go `dialer.DialContext(ctx, network, address)`. -/
  DialContext : dialer.Dialer → String → String → Result NetConn
  /-- Go `gun.StreamGunWithTransport`. -/
  StreamGunWithTransport : gun.TransportWrap → Option gun.Config → Result NetConn
  /-- Go `gun.StreamGunWithConn`. -/
  StreamGunWithConn : NetConn → Option tls.Config → Option gun.Config →
    Option tlsC.RealityConfig → Result NetConn
  /-- Go `(*trojan.Trojan).StreamConn`. -/
  StreamConn : trojan.Trojan → NetConn → Result NetConn
  /-- Go `(*trojan.Trojan).StreamWebsocketConn`. -/
  StreamWebsocketConn : trojan.Trojan → NetConn → trojan.WebsocketOption → Result NetConn
  /-- Go `(*trojan.Trojan).WriteHeader`; `none` is the nil error. -/
  WriteHeader : trojan.Trojan → NetConn → trojan.Command → List Nat → Option GoError

/-- What a method of `*TrojanMC` leaves behind: the Go results `(ret, err)` (`none` is nil), the
adapter after the call, and the calls made, in order. -/
structure Outcome (α : Type) where
  ret : Option α
  err : Option GoError
  adapter : TrojanMC
  trace : List Event

/-- Modelled from the spec: `safeConnClose(c, err)` (package `outbound`, not among the sources)
closes the connection it is given when the operation ends in an error: "on failure at any stage,
the partially-opened connection is closed".  The result is the calls it makes. -/
def safeConnClose (c : NetConn) (err : Option GoError) : List Event :=
  match err with
  | some _ => [Event.Close c]
  | none => []

/-! ## Package `outbound`: the operations -/

/-- Go `(*TrojanMC).plainStream`: the calls made and the Go result `(net.Conn, error)`. -/
def TrojanMC.plainStream (env : Env) (t : TrojanMC) (c : NetConn) :
    List Event × Result NetConn :=
  if t.option.Network = "ws" then
    let hp := env.SplitHostPort t.addr
    let wsOpts : trojan.WebsocketOption :=
      { Host := hp.1
        Port := hp.2
        Path := t.option.WSOpts.Path
        V2rayHttpUpgrade := t.option.WSOpts.V2rayHttpUpgrade
        V2rayHttpUpgradeFastOpen := t.option.WSOpts.V2rayHttpUpgradeFastOpen
        Headers := [] }
    let wsOpts : trojan.WebsocketOption :=
      if t.option.SNI ≠ "" then { wsOpts with Host := t.option.SNI } else wsOpts
    let wsOpts : trojan.WebsocketOption :=
      if t.option.WSOpts.Headers.length ≠ 0 then
        { wsOpts with
          Headers := t.option.WSOpts.Headers.foldl
            (fun h kv => http.Header.Add env.CanonicalMIMEHeaderKey h kv.1 kv.2) wsOpts.Headers }
      else wsOpts
    let res := env.StreamWebsocketConn t.inst c wsOpts
    ([Event.StreamWebsocketConn t.inst c wsOpts res], res)
  else
    let res := env.StreamConn t.inst c
    ([Event.StreamConn t.inst c res], res)

/-- Go `(*TrojanMC).StreamConnContext`. -/
def TrojanMC.StreamConnContext (env : Env) (t : TrojanMC) (c : NetConn) (metadata : C.Metadata) :
    Outcome NetConn :=
  let t : TrojanMC :=
    if env.HaveGlobalFingerprint = true ∧ len t.option.ClientFingerprint = 0 then
      { t with option := { t.option with ClientFingerprint := env.GetGlobalFingerprint } }
    else t
  let neg : List Event × Result NetConn :=
    match t.transport with
    | some _ =>
      let res := env.StreamGunWithConn c t.gunTLSConfig t.gunConfig t.realityConfig
      ([Event.StreamGunWithConn c t.gunTLSConfig t.gunConfig t.realityConfig res], res)
    | none => t.plainStream env c
  match neg.2 with
  | .error err => ⟨none, some (t.addr ++ " connect error: " ++ err), t, neg.1⟩
  | .ok c =>
    if metadata.NetWork = C.NetWork.UDP then
      let err := env.WriteHeader t.inst c .CommandUDP (env.serializesSocksAddr metadata)
      ⟨some c, err, t,
        neg.1 ++ [Event.WriteHeader c .CommandUDP (env.serializesSocksAddr metadata) err]⟩
    else
      let err := env.WriteHeader t.inst c .CommandTCP (env.serializesSocksAddr metadata)
      ⟨some c, err, t,
        neg.1 ++ [Event.WriteHeader c .CommandTCP (env.serializesSocksAddr metadata) err]⟩

/-- Go `(*TrojanMC).DialContextWithDialer`.  The deferred `safeConnClose(c, err)` holds the dialled
connection and reads the named result `err` when the function returns. -/
def TrojanMC.DialContextWithDialer (env : Env) (t : TrojanMC) (dialer : dialer.Dialer)
    (metadata : C.Metadata) : Outcome Conn :=
  let dialed := env.DialContext dialer "tcp" t.addr
  match dialed with
  | .error err =>
    ⟨none, some (t.addr ++ " connect error: " ++ err), t,
      [Event.DialContext dialer "tcp" t.addr dialed]⟩
  | .ok c =>
    let s := t.StreamConnContext env c metadata
    let r : Option Conn × Option GoError :=
      match s.err with
      | some err => (none, some err)
      | none => (some (NewConn s.ret s.adapter), s.err)
    ⟨r.1, r.2, s.adapter,
      [Event.DialContext dialer "tcp" t.addr dialed, Event.tcpKeepAlive c] ++ s.trace ++
        safeConnClose c r.2⟩

/-- Go `(*TrojanMC).DialContext`. -/
def TrojanMC.DialContext (env : Env) (t : TrojanMC) (metadata : C.Metadata)
    (opts : List dialer.DialOption) : Outcome Conn :=
  match t.transport, decide (opts.length = 0) with
  | some transport, true =>
    let res := env.StreamGunWithTransport transport t.gunConfig
    match res with
    | .error err => ⟨none, some err, t, [Event.StreamGunWithTransport transport t.gunConfig res]⟩
    | .ok c =>
      match env.WriteHeader t.inst c .CommandTCP (env.serializesSocksAddr metadata) with
      | some err =>
        ⟨none, some err, t,
          [Event.StreamGunWithTransport transport t.gunConfig res,
           Event.WriteHeader c .CommandTCP (env.serializesSocksAddr metadata) (some err),
           Event.Close c]⟩
      | none =>
        ⟨some (NewConn (some c) t), none, t,
          [Event.StreamGunWithTransport transport t.gunConfig res,
           Event.WriteHeader c .CommandTCP (env.serializesSocksAddr metadata) none]⟩
  | _, _ =>
    t.DialContextWithDialer env (dialer.NewDialer (env.DialOptions t.toBase opts)) metadata

/-- Go `(*TrojanMC).ListenPacketWithDialer`. -/
def TrojanMC.ListenPacketWithDialer (env : Env) (t : TrojanMC) (dialer : dialer.Dialer)
    (metadata : C.Metadata) : Outcome PacketConn :=
  let dialed := env.DialContext dialer "tcp" t.addr
  match dialed with
  | .error err =>
    ⟨none, some (t.addr ++ " connect error: " ++ err), t,
      [Event.DialContext dialer "tcp" t.addr dialed]⟩
  | .ok c0 =>
    let neg := t.plainStream env c0
    match neg.2 with
    | .error err =>
      ⟨none, some (t.addr ++ " connect error: " ++ err), t,
        [Event.DialContext dialer "tcp" t.addr dialed, Event.tcpKeepAlive c0] ++ neg.1 ++
          safeConnClose c0 (some (t.addr ++ " connect error: " ++ err))⟩
    | .ok c =>
      match env.WriteHeader t.inst c .CommandUDP (env.serializesSocksAddr metadata) with
      | some err =>
        ⟨none, some err, t,
          [Event.DialContext dialer "tcp" t.addr dialed, Event.tcpKeepAlive c0] ++ neg.1 ++
            [Event.WriteHeader c .CommandUDP (env.serializesSocksAddr metadata) (some err)] ++
            safeConnClose c0 (some err)⟩
      | none =>
        ⟨some (newPacketConn (t.inst.PacketConn (some c)) t), none, t,
          [Event.DialContext dialer "tcp" t.addr dialed, Event.tcpKeepAlive c0] ++ neg.1 ++
            [Event.WriteHeader c .CommandUDP (env.serializesSocksAddr metadata) none] ++
            safeConnClose c0 none⟩

/-- Go `(*TrojanMC).ListenPacketContext`. -/
def TrojanMC.ListenPacketContext (env : Env) (t : TrojanMC) (metadata : C.Metadata)
    (opts : List dialer.DialOption) : Outcome PacketConn :=
  match t.transport, decide (opts.length = 0) with
  | some transport, true =>
    let res := env.StreamGunWithTransport transport t.gunConfig
    match res with
    | .error err =>
      ⟨none, some (t.addr ++ " connect error: " ++ err), t,
        [Event.StreamGunWithTransport transport t.gunConfig res]⟩
    | .ok c =>
      match env.WriteHeader t.inst c .CommandUDP (env.serializesSocksAddr metadata) with
      | some err =>
        ⟨none, some err, t,
          [Event.StreamGunWithTransport transport t.gunConfig res,
           Event.WriteHeader c .CommandUDP (env.serializesSocksAddr metadata) (some err)] ++
            safeConnClose c (some err)⟩
      | none =>
        ⟨some (newPacketConn (t.inst.PacketConn (some c)) t), none, t,
          [Event.StreamGunWithTransport transport t.gunConfig res,
           Event.WriteHeader c .CommandUDP (env.serializesSocksAddr metadata) none] ++
            safeConnClose c none⟩
  | _, _ =>
    t.ListenPacketWithDialer env (dialer.NewDialer (env.DialOptions t.toBase opts)) metadata

/-- Go `(*TrojanMC).ListenPacketOnStreamConn`; the named result `err` is never assigned. -/
def TrojanMC.ListenPacketOnStreamConn (t : TrojanMC) (c : Option NetConn)
    (_metadata : C.Metadata) : Outcome PacketConn :=
  ⟨some (newPacketConn (t.inst.PacketConn c) t), none, t, []⟩

/-- Go `NewTrojanMC`: the Go results `(*TrojanMC, error)`, `none` for nil.  `tOption` is a pointer
shared with `trojan.New(tOption)`, so the later assignment to `tOption.Reality` is seen by the
instance. -/
def NewTrojanMC (env : Env) (option : TrojanOptionMC) : Option TrojanMC × Option GoError :=
  let addr := env.JoinHostPort option.Server (Itoa option.Port)
  let tOption : trojan.TrojanOption :=
    { Password := option.Password
      ALPN := option.ALPN
      ServerName := option.Server
      SkipCertVerify := option.SkipCertVerify
      Fingerprint := option.Fingerprint
      ClientFingerprint := option.ClientFingerprint
      Reality := none }
  let tOption : trojan.TrojanOption :=
    if option.SNI ≠ "" then { tOption with ServerName := option.SNI } else tOption
  match env.Parse option.RealityOpts with
  | .error err => (none, some err)
  | .ok realityConfig =>
    let tOption : trojan.TrojanOption := { tOption with Reality := realityConfig }
    let t : TrojanMC :=
      { name := option.Name
        addr := addr
        tp := C.AdapterType.Trojan
        udp := option.UDP
        tfo := option.TFO
        mpTcp := option.MPTCP
        iface := option.Interface
        rmark := option.RoutingMark
        inst := trojan.New tOption
        option := option
        gunTLSConfig := none
        gunConfig := none
        transport := none
        realityConfig := realityConfig }
    if option.Network = "grpc" then
      let tlsConfig : tls.Config :=
        { NextProtos := option.ALPN
          MinVersion := tls.VersionTLS12
          InsecureSkipVerify := tOption.SkipCertVerify
          ServerName := tOption.ServerName }
      match env.GetSpecifiedFingerprintTLSConfig tlsConfig option.Fingerprint with
      | .error err => (none, some err)
      | .ok tlsConfig =>
        (some { t with
                transport := some ⟨tlsConfig, tOption.ClientFingerprint, t.realityConfig⟩
                gunTLSConfig := some tlsConfig
                gunConfig := some ⟨option.GrpcOpts.GrpcServiceName, tOption.ServerName⟩ },
          none)
    else (some t, none)

/-! ## Observations on a trace -/

/-- A virtual stream was asked of the shared session (`gun.StreamGunWithTransport`). -/
def Event.isVirtualStream : Event → Bool
  | .StreamGunWithTransport _ _ _ => true
  | _ => false

/-- A TCP dial (`dialer.DialContext`). -/
def Event.isDial : Event → Bool
  | .DialContext _ _ _ _ => true
  | _ => false

/-- A transport negotiation over a connection: gun, TLS, or TLS with WebSocket upgrade. -/
def Event.isNegotiation : Event → Bool
  | .StreamGunWithConn _ _ _ _ _ => true
  | .StreamConn _ _ _ => true
  | .StreamWebsocketConn _ _ _ _ => true
  | _ => false

/-- A call of `WriteHeader`. -/
def Event.isWriteHeader : Event → Bool
  | .WriteHeader _ _ _ _ => true
  | _ => false

/-- The TCP connect or the transport negotiation over a connection returned an error. -/
def Event.connectOrNegotiationFailed : Event → Bool
  | .DialContext _ _ _ (.error _) => true
  | .StreamGunWithConn _ _ _ _ (.error _) => true
  | .StreamConn _ _ (.error _) => true
  | .StreamWebsocketConn _ _ _ (.error _) => true
  | _ => false

/-- A step of a dial returned an error: the connect (TCP dial, or the opening of the virtual
stream on the session), the transport negotiation, or the header write. -/
def Event.failed : Event → Bool
  | .StreamGunWithTransport _ _ (.error _) => true
  | .WriteHeader _ _ _ (some _) => true
  | e => e.connectOrNegotiationFailed

/-- The connection an event opened: the dialled TCP connection, or the virtual stream. -/
def Event.opened : Event → Option NetConn
  | .DialContext _ _ _ (.ok c) => some c
  | .StreamGunWithTransport _ _ (.ok c) => some c
  | _ => none

/-- Every connection opened in the trace is closed later in the trace. -/
def allOpenedClosed : List Event → Bool
  | [] => true
  | e :: es =>
    (match e.opened with
      | some c => es.contains (Event.Close c)
      | none => true) && allOpenedClosed es

/-- The commands of the headers written in a trace, in order. -/
def headerCommands : List Event → List trojan.Command
  | [] => []
  | .WriteHeader _ command _ _ :: es => command :: headerCommands es
  | _ :: es => headerCommands es

/-! ## Sample inputs -/

/-- A sample environment in which every collaborator succeeds: no process-wide default
fingerprint, the dialer answers connection 1, the session answers stream 2, a negotiation over
`c` answers `c + 10` (gun), `c + 20` (TLS) or `c + 30` (WebSocket); the fingerprint pin `"zz"`
is the one invalid pin and reality options without a public key are absent. -/
def Env.sample : Env where
  HaveGlobalFingerprint := false
  GetGlobalFingerprint := ""
  JoinHostPort := fun host port => host ++ ":" ++ port
  SplitHostPort := fun hostport =>
    (String.mk (hostport.toList.takeWhile (fun ch => ch != ':')),
     String.mk ((hostport.toList.dropWhile (fun ch => ch != ':')).drop 1))
  CanonicalMIMEHeaderKey := fun key => key.capitalize
  serializesSocksAddr := fun metadata =>
    [3, len metadata.Host] ++ metadata.Host.toList.map Char.toNat ++
      [metadata.DstPort / 256, metadata.DstPort % 256]
  DialOptions := fun base opts =>
    opts ++ (if base.iface ≠ "" then [dialer.DialOption.WithInterface base.iface] else [])
  Parse := fun o =>
    if o.PublicKey = "" then .ok none
    else if o.PublicKey = "invalid" then .error "invalid REALITY public key"
    else .ok (some ⟨o.PublicKey, o.ShortID⟩)
  GetSpecifiedFingerprintTLSConfig := fun cfg fingerprint =>
    if fingerprint = "zz" then .error "fingerprint string is not valid hex"
    else .ok { cfg with InsecureSkipVerify := true }
  DialContext := fun _ _ _ => .ok 1
  StreamGunWithTransport := fun _ _ => .ok 2
  StreamGunWithConn := fun c _ _ _ => .ok (c + 10)
  StreamConn := fun _ c => .ok (c + 20)
  StreamWebsocketConn := fun _ c _ => .ok (c + 30)
  WriteHeader := fun _ _ _ _ => none

/-- The sample environment with a failing header write. -/
def Env.headerFails : Env :=
  { Env.sample with WriteHeader := fun _ _ _ _ => some "write: broken pipe" }

/-- The sample environment with a failing transport negotiation. -/
def Env.handshakeFails : Env :=
  { Env.sample with
    StreamConn := fun _ _ => .error "x509: certificate signed by unknown authority"
    StreamGunWithConn := fun _ _ _ _ => .error "x509: certificate signed by unknown authority"
    StreamWebsocketConn := fun _ _ _ => .error "x509: certificate signed by unknown authority" }

/-- The sample environment with the process-wide default client fingerprint set. -/
def Env.withGlobalFingerprint (fingerprint : String) : Env :=
  { Env.sample with HaveGlobalFingerprint := true, GetGlobalFingerprint := fingerprint }

/-- A sample endpoint in the given transport mode, with no client fingerprint. -/
def sampleOption (network : String) : TrojanOptionMC where
  Interface := ""
  RoutingMark := 0
  TFO := false
  MPTCP := false
  Name := "proxy"
  Server := "proxy.example"
  Port := 443
  Password := "s3cr3t"
  ALPN := []
  SNI := ""
  SkipCertVerify := false
  Fingerprint := ""
  UDP := true
  Network := network
  RealityOpts := ⟨"", ""⟩
  GrpcOpts := ⟨"GunService"⟩
  WSOpts := ⟨"/tunnel", [("x-token", "abc")], false, false⟩
  ClientFingerprint := ""

/-- The adapter `NewTrojanMC` builds from the sample endpoint in the sample environment; a
placeholder without session should construction fail (it does not). -/
def sampleAdapter (network : String) : TrojanMC :=
  match (NewTrojanMC Env.sample (sampleOption network)).1 with
  | some t => t
  | none =>
    { name := "", addr := "", tp := .Trojan, udp := false, tfo := false, mpTcp := false,
      iface := "", rmark := 0, inst := trojan.New ⟨"", [], "", false, "", "", none⟩,
      option := sampleOption network, gunTLSConfig := none, gunConfig := none,
      transport := none, realityConfig := none }

/-- A sample stream target. -/
def tcpTarget : C.Metadata := ⟨.TCP, "example.com", 80⟩

/-- A sample datagram target. -/
def udpTarget : C.Metadata := ⟨.UDP, "example.com", 53⟩

/-! ## Proof devices -/

/-- The first statement of `StreamConnContext` on its own: the read of the process-wide default
client fingerprint and its assignment to `t.option.ClientFingerprint`. -/
def TrojanMC.lateBound (env : Env) (t : TrojanMC) : TrojanMC :=
  if env.HaveGlobalFingerprint = true ∧ len t.option.ClientFingerprint = 0 then
    { t with option := { t.option with ClientFingerprint := env.GetGlobalFingerprint } }
  else t

/-- The event `e` records a transport negotiation over a connection that answered `r`. -/
def Event.negotiated (e : Event) (r : Result NetConn) : Prop :=
  (∃ c a b d, e = Event.StreamGunWithConn c a b d r) ∨
  (∃ i c, e = Event.StreamConn i c r) ∨
  (∃ i c w, e = Event.StreamWebsocketConn i c w r)

/-- The command `StreamConnContext` puts in the header for a target. -/
def commandOf (metadata : C.Metadata) : trojan.Command :=
  if metadata.NetWork = C.NetWork.UDP then .CommandUDP else .CommandTCP

/-! ## The shape of every execution -/

theorem plainStream_shape (env : Env) (t : TrojanMC) (c : NetConn) :
    ∃ (e : Event) (r : Result NetConn), t.plainStream env c = ([e], r) ∧ e.negotiated r := by
  unfold TrojanMC.plainStream
  split
  · exact ⟨_, _, rfl, Or.inr (Or.inr ⟨_, _, _, rfl⟩)⟩
  · exact ⟨_, _, rfl, Or.inr (Or.inl ⟨_, _, rfl⟩)⟩

theorem lateBound_fields (env : Env) (t : TrojanMC) :
    (t.lateBound env).toBase = t.toBase ∧ (t.lateBound env).inst = t.inst ∧
    (t.lateBound env).transport = t.transport ∧ (t.lateBound env).gunConfig = t.gunConfig ∧
    (t.lateBound env).gunTLSConfig = t.gunTLSConfig ∧
    (t.lateBound env).realityConfig = t.realityConfig ∧
    (t.lateBound env).option.Network = t.option.Network := by
  unfold TrojanMC.lateBound
  split <;> simp

theorem StreamConnContext_shape (env : Env) (t : TrojanMC) (c : NetConn)
    (metadata : C.Metadata) :
    ∃ (e : Event) (r : Result NetConn), e.negotiated r ∧
      t.StreamConnContext env c metadata =
        match r with
        | .error err =>
          (⟨none, some (t.addr ++ " connect error: " ++ err), t.lateBound env, [e]⟩ :
            Outcome NetConn)
        | .ok c1 =>
          ⟨some c1,
            env.WriteHeader t.inst c1 (commandOf metadata) (env.serializesSocksAddr metadata),
            t.lateBound env,
            [e, Event.WriteHeader c1 (commandOf metadata) (env.serializesSocksAddr metadata)
              (env.WriteHeader t.inst c1 (commandOf metadata)
                (env.serializesSocksAddr metadata))]⟩ := by
  obtain ⟨hb, hi, -⟩ := lateBound_fields env t
  have haddr : (t.lateBound env).addr = t.addr := congrArg Base.addr hb
  unfold TrojanMC.StreamConnContext
  rw [show (if env.HaveGlobalFingerprint = true ∧ len t.option.ClientFingerprint = 0 then
      ({ t with option := { t.option with ClientFingerprint := env.GetGlobalFingerprint } } :
        TrojanMC)
    else t) = t.lateBound env from rfl]
  simp only [haddr, hi]
  cases htr : (t.lateBound env).transport with
  | some tr =>
    refine ⟨Event.StreamGunWithConn c (t.lateBound env).gunTLSConfig (t.lateBound env).gunConfig
        (t.lateBound env).realityConfig (env.StreamGunWithConn c (t.lateBound env).gunTLSConfig
          (t.lateBound env).gunConfig (t.lateBound env).realityConfig),
      env.StreamGunWithConn c (t.lateBound env).gunTLSConfig (t.lateBound env).gunConfig
        (t.lateBound env).realityConfig, Or.inl ⟨_, _, _, _, rfl⟩, ?_⟩
    simp only []
    cases env.StreamGunWithConn c (t.lateBound env).gunTLSConfig (t.lateBound env).gunConfig
      (t.lateBound env).realityConfig with
    | error err => rfl
    | ok c1 =>
      simp only [commandOf]
      split <;> rfl
  | none =>
    obtain ⟨e, r, hp, hn⟩ := plainStream_shape env (t.lateBound env) c
    refine ⟨e, r, hn, ?_⟩
    simp only [hp]
    cases r with
    | error err => rfl
    | ok c1 =>
      simp only [commandOf]
      split <;> rfl

/-- Every execution of `DialContextWithDialer`: the dial fails; or it answers `c` and the
negotiation fails, the header write fails, or all three succeed. -/
theorem DialContextWithDialer_shape (env : Env) (t : TrojanMC) (d : dialer.Dialer)
    (metadata : C.Metadata) :
    (∃ err, env.DialContext d "tcp" t.addr = .error err ∧
      t.DialContextWithDialer env d metadata =
        ⟨none, some (t.addr ++ " connect error: " ++ err), t,
          [Event.DialContext d "tcp" t.addr (.error err)]⟩) ∨
    (∃ c e err, env.DialContext d "tcp" t.addr = .ok c ∧ e.negotiated (.error err) ∧
      t.DialContextWithDialer env d metadata =
        ⟨none, some (t.addr ++ " connect error: " ++ err), t.lateBound env,
          [Event.DialContext d "tcp" t.addr (.ok c), Event.tcpKeepAlive c, e, Event.Close c]⟩) ∨
    (∃ c e c1 err, env.DialContext d "tcp" t.addr = .ok c ∧ e.negotiated (.ok c1) ∧
      t.DialContextWithDialer env d metadata =
        ⟨none, some err, t.lateBound env,
          [Event.DialContext d "tcp" t.addr (.ok c), Event.tcpKeepAlive c, e,
            Event.WriteHeader c1 (commandOf metadata) (env.serializesSocksAddr metadata)
              (some err),
            Event.Close c]⟩) ∨
    (∃ c e c1, env.DialContext d "tcp" t.addr = .ok c ∧ e.negotiated (.ok c1) ∧
      t.DialContextWithDialer env d metadata =
        ⟨some (NewConn (some c1) (t.lateBound env)), none, t.lateBound env,
          [Event.DialContext d "tcp" t.addr (.ok c), Event.tcpKeepAlive c, e,
            Event.WriteHeader c1 (commandOf metadata) (env.serializesSocksAddr metadata)
              none]⟩) := by
  unfold TrojanMC.DialContextWithDialer
  cases hd : env.DialContext d "tcp" t.addr with
  | error err => exact Or.inl ⟨err, rfl, rfl⟩
  | ok c =>
    obtain ⟨e, r, hn, hs⟩ := StreamConnContext_shape env t c metadata
    simp only [hs]
    cases r with
    | error err => exact Or.inr (Or.inl ⟨c, e, err, rfl, hn, rfl⟩)
    | ok c1 =>
      simp only []
      cases hw : env.WriteHeader t.inst c1 (commandOf metadata)
        (env.serializesSocksAddr metadata) with
      | some err => exact Or.inr (Or.inr (Or.inl ⟨c, e, c1, err, rfl, hn, rfl⟩))
      | none => exact Or.inr (Or.inr (Or.inr ⟨c, e, c1, rfl, hn, rfl⟩))

/-- Every execution of `ListenPacketWithDialer`, as for `DialContextWithDialer`. -/
theorem ListenPacketWithDialer_shape (env : Env) (t : TrojanMC) (d : dialer.Dialer)
    (metadata : C.Metadata) :
    (∃ err, env.DialContext d "tcp" t.addr = .error err ∧
      t.ListenPacketWithDialer env d metadata =
        ⟨none, some (t.addr ++ " connect error: " ++ err), t,
          [Event.DialContext d "tcp" t.addr (.error err)]⟩) ∨
    (∃ c e err, env.DialContext d "tcp" t.addr = .ok c ∧ e.negotiated (.error err) ∧
      t.ListenPacketWithDialer env d metadata =
        ⟨none, some (t.addr ++ " connect error: " ++ err), t,
          [Event.DialContext d "tcp" t.addr (.ok c), Event.tcpKeepAlive c, e, Event.Close c]⟩) ∨
    (∃ c e c1 err, env.DialContext d "tcp" t.addr = .ok c ∧ e.negotiated (.ok c1) ∧
      t.ListenPacketWithDialer env d metadata =
        ⟨none, some err, t,
          [Event.DialContext d "tcp" t.addr (.ok c), Event.tcpKeepAlive c, e,
            Event.WriteHeader c1 .CommandUDP (env.serializesSocksAddr metadata) (some err),
            Event.Close c]⟩) ∨
    (∃ c e c1, env.DialContext d "tcp" t.addr = .ok c ∧ e.negotiated (.ok c1) ∧
      t.ListenPacketWithDialer env d metadata =
        ⟨some (newPacketConn (t.inst.PacketConn (some c1)) t), none, t,
          [Event.DialContext d "tcp" t.addr (.ok c), Event.tcpKeepAlive c, e,
            Event.WriteHeader c1 .CommandUDP (env.serializesSocksAddr metadata) none]⟩) := by
  unfold TrojanMC.ListenPacketWithDialer
  cases hd : env.DialContext d "tcp" t.addr with
  | error err => exact Or.inl ⟨err, rfl, rfl⟩
  | ok c =>
    obtain ⟨e, r, hp, hn⟩ := plainStream_shape env t c
    simp only [hp]
    cases r with
    | error err => exact Or.inr (Or.inl ⟨c, e, err, rfl, hn, rfl⟩)
    | ok c1 =>
      simp only []
      cases hw : env.WriteHeader t.inst c1 .CommandUDP (env.serializesSocksAddr metadata) with
      | some err => exact Or.inr (Or.inr (Or.inl ⟨c, e, c1, err, rfl, hn, rfl⟩))
      | none => exact Or.inr (Or.inr (Or.inr ⟨c, e, c1, rfl, hn, rfl⟩))

/-- Without a session, or with a per-call option, `DialContext` is `DialContextWithDialer` with a
dialer built from the options. -/
theorem DialContext_fresh (env : Env) (t : TrojanMC) (metadata : C.Metadata)
    (opts : List dialer.DialOption) (h : ¬ (t.transport ≠ none ∧ opts = [])) :
    t.DialContext env metadata opts =
      t.DialContextWithDialer env (dialer.NewDialer (env.DialOptions t.toBase opts)) metadata := by
  unfold TrojanMC.DialContext
  split
  · rename_i tr hd ht hl
    exact absurd ⟨by simp [ht], List.length_eq_zero.mp (of_decide_eq_true hl)⟩ h
  · rfl

/-- With a session and no per-call option, `DialContext` opens a virtual stream and writes the
header on it: the three executions. -/
theorem DialContext_shared (env : Env) (t : TrojanMC) (metadata : C.Metadata)
    (tr : gun.TransportWrap) (h : t.transport = some tr) :
    (∃ err, env.StreamGunWithTransport tr t.gunConfig = .error err ∧
      t.DialContext env metadata [] =
        ⟨none, some err, t, [Event.StreamGunWithTransport tr t.gunConfig (.error err)]⟩) ∨
    (∃ c err, env.StreamGunWithTransport tr t.gunConfig = .ok c ∧
      t.DialContext env metadata [] =
        ⟨none, some err, t,
          [Event.StreamGunWithTransport tr t.gunConfig (.ok c),
           Event.WriteHeader c .CommandTCP (env.serializesSocksAddr metadata) (some err),
           Event.Close c]⟩) ∨
    (∃ c, env.StreamGunWithTransport tr t.gunConfig = .ok c ∧
      t.DialContext env metadata [] =
        ⟨some (NewConn (some c) t), none, t,
          [Event.StreamGunWithTransport tr t.gunConfig (.ok c),
           Event.WriteHeader c .CommandTCP (env.serializesSocksAddr metadata) none]⟩) := by
  unfold TrojanMC.DialContext
  rw [h]
  simp only [List.length_nil, decide_True]
  cases env.StreamGunWithTransport tr t.gunConfig with
  | error err => exact Or.inl ⟨err, rfl, rfl⟩
  | ok c =>
    simp only []
    cases hw : env.WriteHeader t.inst c .CommandTCP (env.serializesSocksAddr metadata) with
    | some err => exact Or.inr (Or.inl ⟨c, err, rfl, rfl⟩)
    | none => exact Or.inr (Or.inr ⟨c, rfl, rfl⟩)

/-- Without a session, or with a per-call option, `ListenPacketContext` is
`ListenPacketWithDialer` with a dialer built from the options. -/
theorem ListenPacketContext_fresh (env : Env) (t : TrojanMC) (metadata : C.Metadata)
    (opts : List dialer.DialOption) (h : ¬ (t.transport ≠ none ∧ opts = [])) :
    t.ListenPacketContext env metadata opts =
      t.ListenPacketWithDialer env (dialer.NewDialer (env.DialOptions t.toBase opts))
        metadata := by
  unfold TrojanMC.ListenPacketContext
  split
  · rename_i tr hd ht hl
    exact absurd ⟨by simp [ht], List.length_eq_zero.mp (of_decide_eq_true hl)⟩ h
  · rfl

/-- With a session and no per-call option, `ListenPacketContext` opens a virtual stream and
writes the header on it: the three executions. -/
theorem ListenPacketContext_shared (env : Env) (t : TrojanMC) (metadata : C.Metadata)
    (tr : gun.TransportWrap) (h : t.transport = some tr) :
    (∃ err, env.StreamGunWithTransport tr t.gunConfig = .error err ∧
      t.ListenPacketContext env metadata [] =
        ⟨none, some (t.addr ++ " connect error: " ++ err), t,
          [Event.StreamGunWithTransport tr t.gunConfig (.error err)]⟩) ∨
    (∃ c err, env.StreamGunWithTransport tr t.gunConfig = .ok c ∧
      t.ListenPacketContext env metadata [] =
        ⟨none, some err, t,
          [Event.StreamGunWithTransport tr t.gunConfig (.ok c),
           Event.WriteHeader c .CommandUDP (env.serializesSocksAddr metadata) (some err),
           Event.Close c]⟩) ∨
    (∃ c, env.StreamGunWithTransport tr t.gunConfig = .ok c ∧
      t.ListenPacketContext env metadata [] =
        ⟨some (newPacketConn (t.inst.PacketConn (some c)) t), none, t,
          [Event.StreamGunWithTransport tr t.gunConfig (.ok c),
           Event.WriteHeader c .CommandUDP (env.serializesSocksAddr metadata) none]⟩) := by
  unfold TrojanMC.ListenPacketContext
  rw [h]
  simp only [List.length_nil, decide_True]
  cases env.StreamGunWithTransport tr t.gunConfig with
  | error err => exact Or.inl ⟨err, rfl, rfl⟩
  | ok c =>
    simp only []
    cases hw : env.WriteHeader t.inst c .CommandUDP (env.serializesSocksAddr metadata) with
    | some err => exact Or.inr (Or.inl ⟨c, err, rfl, rfl⟩)
    | none => exact Or.inr (Or.inr ⟨c, rfl, rfl⟩)

/-! ## The dial operations -/

/-- C1: `DialContext` opens a virtual stream on the shared session
(`gun.StreamGunWithTransport`) and makes no TCP dial exactly when the session exists and the option
list is empty; the stream is then asked of the adapter's own session.  In every other case it
opens no virtual stream and makes one TCP dial, to the adapter's address, through the dialer built
from the options. -/
theorem DialContext_shared_session_iff (env : Env) (t : TrojanMC) (metadata : C.Metadata)
    (opts : List dialer.DialOption) :
    (((t.DialContext env metadata opts).trace.any Event.isVirtualStream = true ∧
        (t.DialContext env metadata opts).trace.any Event.isDial = false) ↔
      (t.transport ≠ none ∧ opts = [])) ∧
    ((t.transport ≠ none ∧ opts = []) →
      ∃ tr, t.transport = some tr ∧
        (t.DialContext env metadata opts).trace.filter Event.isVirtualStream =
          [Event.StreamGunWithTransport tr t.gunConfig
            (env.StreamGunWithTransport tr t.gunConfig)]) ∧
    (¬ (t.transport ≠ none ∧ opts = []) →
      (t.DialContext env metadata opts).trace.any Event.isVirtualStream = false ∧
      (t.DialContext env metadata opts).trace.filter Event.isDial =
        [Event.DialContext (dialer.NewDialer (env.DialOptions t.toBase opts)) "tcp" t.addr
          (env.DialContext (dialer.NewDialer (env.DialOptions t.toBase opts)) "tcp" t.addr)]) := by
  by_cases h : t.transport ≠ none ∧ opts = []
  · obtain ⟨htr, rfl⟩ := h
    obtain ⟨tr, htr⟩ := Option.ne_none_iff_exists'.mp htr
    have hs := DialContext_shared env t metadata tr htr
    have key : (t.DialContext env metadata []).trace.any Event.isDial = false ∧
        (t.DialContext env metadata []).trace.filter Event.isVirtualStream =
          [Event.StreamGunWithTransport tr t.gunConfig
            (env.StreamGunWithTransport tr t.gunConfig)] := by
      rcases hs with ⟨err, hg, heq⟩ | ⟨c, err, hg, heq⟩ | ⟨c, hg, heq⟩ <;>
        (rw [heq, hg]; simp [Event.isDial, Event.isVirtualStream])
    have hany : (t.DialContext env metadata []).trace.any Event.isVirtualStream = true := by
      rw [List.any_eq_true]
      refine ⟨Event.StreamGunWithTransport tr t.gunConfig
        (env.StreamGunWithTransport tr t.gunConfig), ?_, rfl⟩
      have : Event.StreamGunWithTransport tr t.gunConfig
          (env.StreamGunWithTransport tr t.gunConfig) ∈
          (t.DialContext env metadata []).trace.filter Event.isVirtualStream := by
        rw [key.2]; exact List.mem_singleton.mpr rfl
      exact (List.mem_filter.mp this).1
    refine ⟨⟨fun _ => ⟨by simp [htr], rfl⟩, fun _ => ⟨hany, key.1⟩⟩, fun _ => ⟨tr, htr, key.2⟩,
      fun hn => absurd ⟨by simp [htr], rfl⟩ hn⟩
  · have hf := DialContext_fresh env t metadata opts h
    have key : (t.DialContext env metadata opts).trace.any Event.isVirtualStream = false ∧
        (t.DialContext env metadata opts).trace.filter Event.isDial =
          [Event.DialContext (dialer.NewDialer (env.DialOptions t.toBase opts)) "tcp" t.addr
            (env.DialContext (dialer.NewDialer (env.DialOptions t.toBase opts)) "tcp"
              t.addr)] := by
      rw [hf]
      rcases DialContextWithDialer_shape env t (dialer.NewDialer (env.DialOptions t.toBase opts))
          metadata with ⟨err, hd, heq⟩ | ⟨c, e, err, hd, hn, heq⟩ |
          ⟨c, e, c1, err, hd, hn, heq⟩ | ⟨c, e, c1, hd, hn, heq⟩
      · rw [heq, hd]; simp [Event.isDial, Event.isVirtualStream]
      all_goals
        rw [heq, hd]
        rcases hn with ⟨_, _, _, _, rfl⟩ | ⟨_, _, rfl⟩ | ⟨_, _, _, rfl⟩ <;>
          simp [Event.isDial, Event.isVirtualStream]
    refine ⟨⟨fun hh => ?_, fun hh => absurd hh h⟩, fun hh => absurd hh h, fun _ => key⟩
    rw [key.1] at hh
    exact absurd hh.1 (by simp)

/-- C3: in every execution of `DialContext` or `ListenPacketContext` in which a step fails (the
connect, the transport negotiation or the header write), the operation returns a nil connection
and a non-nil error, and every connection it opened (the dialled TCP connection, or the virtual
stream) has been closed by the time it returns. -/
theorem dial_failure_returns_error_and_closes (env : Env) (t : TrojanMC) (metadata : C.Metadata)
    (opts : List dialer.DialOption) :
    ((t.DialContext env metadata opts).trace.any Event.failed = true →
      (t.DialContext env metadata opts).ret = none ∧
      (t.DialContext env metadata opts).err ≠ none ∧
      allOpenedClosed (t.DialContext env metadata opts).trace = true) ∧
    ((t.ListenPacketContext env metadata opts).trace.any Event.failed = true →
      (t.ListenPacketContext env metadata opts).ret = none ∧
      (t.ListenPacketContext env metadata opts).err ≠ none ∧
      allOpenedClosed (t.ListenPacketContext env metadata opts).trace = true) := by
  by_cases h : t.transport ≠ none ∧ opts = []
  · obtain ⟨htr, rfl⟩ := h
    obtain ⟨tr, htr⟩ := Option.ne_none_iff_exists'.mp htr
    constructor
    · rcases DialContext_shared env t metadata tr htr with
        ⟨err, hg, heq⟩ | ⟨c, err, hg, heq⟩ | ⟨c, hg, heq⟩ <;>
        (rw [heq]
         simp [Event.failed, Event.connectOrNegotiationFailed, allOpenedClosed, Event.opened])
    · rcases ListenPacketContext_shared env t metadata tr htr with
        ⟨err, hg, heq⟩ | ⟨c, err, hg, heq⟩ | ⟨c, hg, heq⟩ <;>
        (rw [heq]
         simp [Event.failed, Event.connectOrNegotiationFailed, allOpenedClosed, Event.opened])
  · constructor
    · rw [DialContext_fresh env t metadata opts h]
      rcases DialContextWithDialer_shape env t (dialer.NewDialer (env.DialOptions t.toBase opts))
          metadata with ⟨err, hd, heq⟩ | ⟨c, e, err, hd, hn, heq⟩ |
          ⟨c, e, c1, err, hd, hn, heq⟩ | ⟨c, e, c1, hd, hn, heq⟩
      · rw [heq]
        simp [Event.failed, Event.connectOrNegotiationFailed, allOpenedClosed, Event.opened]
      all_goals
        rw [heq]
        rcases hn with ⟨_, _, _, _, rfl⟩ | ⟨_, _, rfl⟩ | ⟨_, _, _, rfl⟩ <;>
          simp [Event.failed, Event.connectOrNegotiationFailed, allOpenedClosed, Event.opened]
    · rw [ListenPacketContext_fresh env t metadata opts h]
      rcases ListenPacketWithDialer_shape env t
          (dialer.NewDialer (env.DialOptions t.toBase opts))
          metadata with ⟨err, hd, heq⟩ | ⟨c, e, err, hd, hn, heq⟩ |
          ⟨c, e, c1, err, hd, hn, heq⟩ | ⟨c, e, c1, hd, hn, heq⟩
      · rw [heq]
        simp [Event.failed, Event.connectOrNegotiationFailed, allOpenedClosed, Event.opened]
      all_goals
        rw [heq]
        rcases hn with ⟨_, _, _, _, rfl⟩ | ⟨_, _, rfl⟩ | ⟨_, _, _, rfl⟩ <;>
          simp [Event.failed, Event.connectOrNegotiationFailed, allOpenedClosed, Event.opened]

/-- C3, at a concrete input: the sample adapter without session, a failing header write. -/
theorem dial_failure_returns_error_and_closes_witness :
    ((sampleAdapter "tcp").DialContext Env.headerFails tcpTarget []).trace.any Event.failed
        = true ∧
    ((sampleAdapter "tcp").DialContext Env.headerFails tcpTarget []).ret = none ∧
    ((sampleAdapter "tcp").DialContext Env.headerFails tcpTarget []).err ≠ none ∧
    allOpenedClosed ((sampleAdapter "tcp").DialContext Env.headerFails tcpTarget []).trace
        = true :=
  ⟨by decide,
    (dial_failure_returns_error_and_closes Env.headerFails (sampleAdapter "tcp") tcpTarget []).1
      (by decide)⟩

/-- C4: whenever `DialContext` or `ListenPacketContext` returns a connection, the trace of the
call holds exactly one `WriteHeader`, made on the stream the returned connection wraps and
answered without error; `ListenPacketOnStreamConn` calls `WriteHeader` for no input. -/
theorem header_written_exactly_once (env : Env) (t : TrojanMC) (metadata : C.Metadata)
    (opts : List dialer.DialOption) :
    (∀ conn, (t.DialContext env metadata opts).ret = some conn →
      ∃ c command, conn.stream = some c ∧
        (t.DialContext env metadata opts).trace.filter Event.isWriteHeader =
          [Event.WriteHeader c command (env.serializesSocksAddr metadata) none]) ∧
    (∀ pconn, (t.ListenPacketContext env metadata opts).ret = some pconn →
      ∃ c command, pconn.pc.stream = some c ∧
        (t.ListenPacketContext env metadata opts).trace.filter Event.isWriteHeader =
          [Event.WriteHeader c command (env.serializesSocksAddr metadata) none]) ∧
    (∀ c, (t.ListenPacketOnStreamConn c metadata).trace.filter Event.isWriteHeader = []) := by
  refine ⟨?_, ?_, fun c => rfl⟩
  · intro conn
    by_cases h : t.transport ≠ none ∧ opts = []
    · obtain ⟨htr, rfl⟩ := h
      obtain ⟨tr, htr⟩ := Option.ne_none_iff_exists'.mp htr
      rcases DialContext_shared env t metadata tr htr with
        ⟨err, hg, heq⟩ | ⟨c, err, hg, heq⟩ | ⟨c, hg, heq⟩ <;> rw [heq] <;> intro hr
      · simp at hr
      · simp at hr
      · simp only [Option.some.injEq] at hr
        subst hr
        exact ⟨c, .CommandTCP, rfl, by simp [Event.isWriteHeader]⟩
    · rw [DialContext_fresh env t metadata opts h]
      rcases DialContextWithDialer_shape env t (dialer.NewDialer (env.DialOptions t.toBase opts))
          metadata with ⟨err, hd, heq⟩ | ⟨c, e, err, hd, hn, heq⟩ |
          ⟨c, e, c1, err, hd, hn, heq⟩ | ⟨c, e, c1, hd, hn, heq⟩ <;> rw [heq] <;> intro hr
      · simp at hr
      · simp at hr
      · simp at hr
      · simp only [Option.some.injEq] at hr
        subst hr
        refine ⟨c1, commandOf metadata, rfl, ?_⟩
        rcases hn with ⟨_, _, _, _, rfl⟩ | ⟨_, _, rfl⟩ | ⟨_, _, _, rfl⟩ <;>
          simp [Event.isWriteHeader]
  · intro pconn
    by_cases h : t.transport ≠ none ∧ opts = []
    · obtain ⟨htr, rfl⟩ := h
      obtain ⟨tr, htr⟩ := Option.ne_none_iff_exists'.mp htr
      rcases ListenPacketContext_shared env t metadata tr htr with
        ⟨err, hg, heq⟩ | ⟨c, err, hg, heq⟩ | ⟨c, hg, heq⟩ <;> rw [heq] <;> intro hr
      · simp at hr
      · simp at hr
      · simp only [Option.some.injEq] at hr
        subst hr
        exact ⟨c, .CommandUDP, rfl, by simp [Event.isWriteHeader]⟩
    · rw [ListenPacketContext_fresh env t metadata opts h]
      rcases ListenPacketWithDialer_shape env t
          (dialer.NewDialer (env.DialOptions t.toBase opts))
          metadata with ⟨err, hd, heq⟩ | ⟨c, e, err, hd, hn, heq⟩ |
          ⟨c, e, c1, err, hd, hn, heq⟩ | ⟨c, e, c1, hd, hn, heq⟩ <;> rw [heq] <;> intro hr
      · simp at hr
      · simp at hr
      · simp at hr
      · simp only [Option.some.injEq] at hr
        subst hr
        refine ⟨c1, .CommandUDP, rfl, ?_⟩
        rcases hn with ⟨_, _, _, _, rfl⟩ | ⟨_, _, rfl⟩ | ⟨_, _, _, rfl⟩ <;>
          simp [Event.isWriteHeader]

/-- C4, at a concrete input: the sample adapter with a session returns a connection on stream 2
after one header write on stream 2. -/
theorem header_written_exactly_once_witness :
    ((sampleAdapter "grpc").DialContext Env.sample tcpTarget []).ret =
      some ⟨some 2, "proxy"⟩ ∧
    ∃ c command, (⟨some 2, "proxy"⟩ : Conn).stream = some c ∧
      ((sampleAdapter "grpc").DialContext Env.sample tcpTarget []).trace.filter
          Event.isWriteHeader =
        [Event.WriteHeader c command (Env.sample.serializesSocksAddr tcpTarget) none] :=
  ⟨by decide,
    (header_written_exactly_once Env.sample (sampleAdapter "grpc") tcpTarget []).1 _
      (by decide)⟩

/-- C7: in every execution of `StreamConnContext`, `DialContext` or `ListenPacketContext` in
which the TCP connect or the transport negotiation over a connection returns an error,
`WriteHeader` is never called. -/
theorem no_header_after_failed_connect_or_handshake (env : Env) (t : TrojanMC) (c : NetConn)
    (metadata : C.Metadata) (opts : List dialer.DialOption) :
    ((t.StreamConnContext env c metadata).trace.any Event.connectOrNegotiationFailed = true →
      (t.StreamConnContext env c metadata).trace.filter Event.isWriteHeader = []) ∧
    ((t.DialContext env metadata opts).trace.any Event.connectOrNegotiationFailed = true →
      (t.DialContext env metadata opts).trace.filter Event.isWriteHeader = []) ∧
    ((t.ListenPacketContext env metadata opts).trace.any Event.connectOrNegotiationFailed
        = true →
      (t.ListenPacketContext env metadata opts).trace.filter Event.isWriteHeader = []) := by
  refine ⟨?_, ?_, ?_⟩
  · obtain ⟨e, r, hn, heq⟩ := StreamConnContext_shape env t c metadata
    rw [heq]
    cases r <;> rcases hn with ⟨_, _, _, _, rfl⟩ | ⟨_, _, rfl⟩ | ⟨_, _, _, rfl⟩ <;>
      simp [Event.connectOrNegotiationFailed, Event.isWriteHeader]
  · by_cases h : t.transport ≠ none ∧ opts = []
    · obtain ⟨htr, rfl⟩ := h
      obtain ⟨tr, htr⟩ := Option.ne_none_iff_exists'.mp htr
      rcases DialContext_shared env t metadata tr htr with
        ⟨err, hg, heq⟩ | ⟨c, err, hg, heq⟩ | ⟨c, hg, heq⟩ <;>
        (rw [heq]; simp [Event.connectOrNegotiationFailed, Event.isWriteHeader])
    · rw [DialContext_fresh env t metadata opts h]
      rcases DialContextWithDialer_shape env t (dialer.NewDialer (env.DialOptions t.toBase opts))
          metadata with ⟨err, hd, heq⟩ | ⟨c, e, err, hd, hn, heq⟩ |
          ⟨c, e, c1, err, hd, hn, heq⟩ | ⟨c, e, c1, hd, hn, heq⟩
      · rw [heq]; simp [Event.connectOrNegotiationFailed, Event.isWriteHeader]
      all_goals
        rw [heq]
        rcases hn with ⟨_, _, _, _, rfl⟩ | ⟨_, _, rfl⟩ | ⟨_, _, _, rfl⟩ <;>
          simp [Event.connectOrNegotiationFailed, Event.isWriteHeader]
  · by_cases h : t.transport ≠ none ∧ opts = []
    · obtain ⟨htr, rfl⟩ := h
      obtain ⟨tr, htr⟩ := Option.ne_none_iff_exists'.mp htr
      rcases ListenPacketContext_shared env t metadata tr htr with
        ⟨err, hg, heq⟩ | ⟨c, err, hg, heq⟩ | ⟨c, hg, heq⟩ <;>
        (rw [heq]; simp [Event.connectOrNegotiationFailed, Event.isWriteHeader])
    · rw [ListenPacketContext_fresh env t metadata opts h]
      rcases ListenPacketWithDialer_shape env t
          (dialer.NewDialer (env.DialOptions t.toBase opts))
          metadata with ⟨err, hd, heq⟩ | ⟨c, e, err, hd, hn, heq⟩ |
          ⟨c, e, c1, err, hd, hn, heq⟩ | ⟨c, e, c1, hd, hn, heq⟩
      · rw [heq]; simp [Event.connectOrNegotiationFailed, Event.isWriteHeader]
      all_goals
        rw [heq]
        rcases hn with ⟨_, _, _, _, rfl⟩ | ⟨_, _, rfl⟩ | ⟨_, _, _, rfl⟩ <;>
          simp [Event.connectOrNegotiationFailed, Event.isWriteHeader]

/-- C7, at a concrete input: an untrusted certificate fails the TLS handshake of the sample
adapter, and no header is written. -/
theorem no_header_after_failed_connect_or_handshake_witness :
    ((sampleAdapter "tcp").DialContext Env.handshakeFails tcpTarget []).trace.any
        Event.connectOrNegotiationFailed = true ∧
    ((sampleAdapter "tcp").DialContext Env.handshakeFails tcpTarget []).trace.filter
        Event.isWriteHeader = [] :=
  ⟨by decide,
    (no_header_after_failed_connect_or_handshake Env.handshakeFails (sampleAdapter "tcp") 0
      tcpTarget []).2.1 (by decide)⟩

/-- C5 fails as stated: for a target whose network is UDP, on the fresh-dial path through
`StreamConnContext`, the header `DialContext` writes carries `trojan.CommandUDP` (0x03), so the
command is not STREAM for every target. -/
theorem DialContext_command_counterexample :
    udpTarget.NetWork = C.NetWork.UDP ∧
    headerCommands ((sampleAdapter "tcp").DialContext Env.sample udpTarget []).trace
      = [trojan.Command.CommandUDP] ∧
    trojan.Command.CommandUDP.toByte = 0x03 ∧
    ¬ (∀ (env : Env) (t : TrojanMC) (metadata : C.Metadata) (opts : List dialer.DialOption),
        ∀ command ∈ headerCommands (t.DialContext env metadata opts).trace,
          command = trojan.Command.CommandTCP) := by
  refine ⟨by decide, by decide, by decide, fun h => ?_⟩
  have := h Env.sample (sampleAdapter "tcp") udpTarget [] trojan.Command.CommandUDP (by decide)
  exact absurd this (by decide)

/-- C5, amended: `DialContext` writes at most one header; on the shared session its command is
STREAM (`trojan.CommandTCP`, 0x01) whatever the target's network; on the fresh-dial path, through
`StreamConnContext`, it is STREAM when the target's network is not UDP and DATAGRAM-ASSOCIATE
(`trojan.CommandUDP`, 0x03) when it is UDP.  A returned connection has had its header written. -/
theorem DialContext_command (env : Env) (t : TrojanMC) (metadata : C.Metadata)
    (opts : List dialer.DialOption) :
    (headerCommands (t.DialContext env metadata opts).trace = [] ∨
      headerCommands (t.DialContext env metadata opts).trace =
        [if t.transport ≠ none ∧ opts = [] then trojan.Command.CommandTCP
         else if metadata.NetWork = C.NetWork.UDP then trojan.Command.CommandUDP
         else trojan.Command.CommandTCP]) ∧
    ((t.DialContext env metadata opts).ret ≠ none →
      headerCommands (t.DialContext env metadata opts).trace =
        [if t.transport ≠ none ∧ opts = [] then trojan.Command.CommandTCP
         else if metadata.NetWork = C.NetWork.UDP then trojan.Command.CommandUDP
         else trojan.Command.CommandTCP]) ∧
    trojan.Command.CommandTCP.toByte = 0x01 ∧ trojan.Command.CommandUDP.toByte = 0x03 := by
  refine ⟨?_, ?_, rfl, rfl⟩
  all_goals
    by_cases h : t.transport ≠ none ∧ opts = []
    · rw [if_pos h]
      obtain ⟨htr, rfl⟩ := h
      obtain ⟨tr, htr⟩ := Option.ne_none_iff_exists'.mp htr
      rcases DialContext_shared env t metadata tr htr with
        ⟨err, hg, heq⟩ | ⟨c, err, hg, heq⟩ | ⟨c, hg, heq⟩ <;>
        (rw [heq]; simp [headerCommands])
    · rw [if_neg h, DialContext_fresh env t metadata opts h]
      rcases DialContextWithDialer_shape env t (dialer.NewDialer (env.DialOptions t.toBase opts))
          metadata with ⟨err, hd, heq⟩ | ⟨c, e, err, hd, hn, heq⟩ |
          ⟨c, e, c1, err, hd, hn, heq⟩ | ⟨c, e, c1, hd, hn, heq⟩
      · rw [heq]; simp [headerCommands]
      all_goals
        rw [heq]
        rcases hn with ⟨_, _, _, _, rfl⟩ | ⟨_, _, rfl⟩ | ⟨_, _, _, rfl⟩ <;>
          simp [headerCommands, commandOf]

/-- C5, amended, at a concrete input: a returned connection for a UDP target. -/
theorem DialContext_command_witness :
    ((sampleAdapter "ws").DialContext Env.sample udpTarget []).ret ≠ none ∧
    headerCommands ((sampleAdapter "ws").DialContext Env.sample udpTarget []).trace =
      [if (sampleAdapter "ws").transport ≠ none ∧ ([] : List dialer.DialOption) = [] then
         trojan.Command.CommandTCP
       else if udpTarget.NetWork = C.NetWork.UDP then trojan.Command.CommandUDP
       else trojan.Command.CommandTCP] :=
  ⟨by decide, (DialContext_command Env.sample (sampleAdapter "ws") udpTarget []).2.1 (by decide)⟩

/-! ## Which negotiation runs -/

/-- With a session, `StreamConnContext` negotiates with `gun.StreamGunWithConn` over the
connection it is given, and with nothing else. -/
theorem StreamConnContext_gun (env : Env) (t : TrojanMC) (c : NetConn) (metadata : C.Metadata)
    (h : t.transport ≠ none) :
    (t.StreamConnContext env c metadata).trace.filter Event.isNegotiation =
      [Event.StreamGunWithConn c t.gunTLSConfig t.gunConfig t.realityConfig
        (env.StreamGunWithConn c t.gunTLSConfig t.gunConfig t.realityConfig)] := by
  obtain ⟨tr, htr⟩ := Option.ne_none_iff_exists'.mp h
  obtain ⟨-, -, ht, hg, hc, hr, -⟩ := lateBound_fields env t
  unfold TrojanMC.StreamConnContext
  rw [show (if env.HaveGlobalFingerprint = true ∧ len t.option.ClientFingerprint = 0 then
      ({ t with option := { t.option with ClientFingerprint := env.GetGlobalFingerprint } } :
        TrojanMC)
    else t) = t.lateBound env from rfl]
  simp only [ht, hg, hc, hr, htr]
  cases env.StreamGunWithConn c t.gunTLSConfig t.gunConfig t.realityConfig with
  | error err => simp [Event.isNegotiation]
  | ok c1 =>
    simp only []
    split <;> simp [Event.isNegotiation]

/-- When the endpoint's network is not `"ws"`, `plainStream` is the Plain strategy: one TLS client
handshake, `trojan.StreamConn`, over the connection. -/
theorem plainStream_plain (env : Env) (t : TrojanMC) (c : NetConn)
    (h : t.option.Network ≠ "ws") :
    t.plainStream env c = ([Event.StreamConn t.inst c (env.StreamConn t.inst c)],
      env.StreamConn t.inst c) := by
  unfold TrojanMC.plainStream
  rw [if_neg h]

/-- The negotiations in a trace of `DialContextWithDialer` are those of its
`StreamConnContext`. -/
theorem DialContextWithDialer_negotiation (env : Env) (t : TrojanMC) (d : dialer.Dialer)
    (metadata : C.Metadata) (c : NetConn) (hd : env.DialContext d "tcp" t.addr = .ok c) :
    (t.DialContextWithDialer env d metadata).trace.filter Event.isNegotiation =
      (t.StreamConnContext env c metadata).trace.filter Event.isNegotiation := by
  unfold TrojanMC.DialContextWithDialer
  rw [hd]
  simp only [List.filter_append]
  have h1 : ∀ err, (safeConnClose c err).filter Event.isNegotiation = [] := by
    intro err; cases err <;> simp [safeConnClose, Event.isNegotiation]
  rw [h1]
  simp [Event.isNegotiation]

/-- The negotiations in a trace of `ListenPacketWithDialer` are those of its `plainStream`. -/
theorem ListenPacketWithDialer_negotiation (env : Env) (t : TrojanMC) (d : dialer.Dialer)
    (metadata : C.Metadata) (c : NetConn) (hd : env.DialContext d "tcp" t.addr = .ok c) :
    (t.ListenPacketWithDialer env d metadata).trace.filter Event.isNegotiation =
      (t.plainStream env c).1.filter Event.isNegotiation := by
  unfold TrojanMC.ListenPacketWithDialer
  rw [hd]
  simp only []
  obtain ⟨e, r, hp, hn⟩ := plainStream_shape env t c
  rw [hp]
  cases r with
  | error err =>
    rcases hn with ⟨_, _, _, _, rfl⟩ | ⟨_, _, rfl⟩ | ⟨_, _, _, rfl⟩ <;>
      simp [safeConnClose, Event.isNegotiation]
  | ok c1 =>
    simp only []
    cases env.WriteHeader t.inst c1 .CommandUDP (env.serializesSocksAddr metadata) <;>
      rcases hn with ⟨_, _, _, _, rfl⟩ | ⟨_, _, rfl⟩ | ⟨_, _, _, rfl⟩ <;>
      simp [safeConnClose, Event.isNegotiation]

/-- With a per-call option, or without a session, a dial opens no virtual stream and makes
one TCP dial through the dialer built from the options. -/
theorem fresh_dial_events (env : Env) (t : TrojanMC) (metadata : C.Metadata)
    (opts : List dialer.DialOption) (h : ¬ (t.transport ≠ none ∧ opts = [])) :
    ((t.DialContext env metadata opts).trace.any Event.isVirtualStream = false ∧
      (t.DialContext env metadata opts).trace.filter Event.isDial =
        [Event.DialContext (dialer.NewDialer (env.DialOptions t.toBase opts)) "tcp" t.addr
          (env.DialContext (dialer.NewDialer (env.DialOptions t.toBase opts)) "tcp" t.addr)]) ∧
    ((t.ListenPacketContext env metadata opts).trace.any Event.isVirtualStream = false ∧
      (t.ListenPacketContext env metadata opts).trace.filter Event.isDial =
        [Event.DialContext (dialer.NewDialer (env.DialOptions t.toBase opts)) "tcp" t.addr
          (env.DialContext (dialer.NewDialer (env.DialOptions t.toBase opts)) "tcp"
            t.addr)]) := by
  constructor
  · rw [DialContext_fresh env t metadata opts h]
    rcases DialContextWithDialer_shape env t (dialer.NewDialer (env.DialOptions t.toBase opts))
        metadata with ⟨err, hd, heq⟩ | ⟨c, e, err, hd, hn, heq⟩ |
        ⟨c, e, c1, err, hd, hn, heq⟩ | ⟨c, e, c1, hd, hn, heq⟩
    · rw [heq, hd]; simp [Event.isDial, Event.isVirtualStream]
    all_goals
      rw [heq, hd]
      rcases hn with ⟨_, _, _, _, rfl⟩ | ⟨_, _, rfl⟩ | ⟨_, _, _, rfl⟩ <;>
        simp [Event.isDial, Event.isVirtualStream]
  · rw [ListenPacketContext_fresh env t metadata opts h]
    rcases ListenPacketWithDialer_shape env t (dialer.NewDialer (env.DialOptions t.toBase opts))
        metadata with ⟨err, hd, heq⟩ | ⟨c, e, err, hd, hn, heq⟩ |
        ⟨c, e, c1, err, hd, hn, heq⟩ | ⟨c, e, c1, hd, hn, heq⟩
    · rw [heq, hd]; simp [Event.isDial, Event.isVirtualStream]
    all_goals
      rw [heq, hd]
      rcases hn with ⟨_, _, _, _, rfl⟩ | ⟨_, _, rfl⟩ | ⟨_, _, _, rfl⟩ <;>
        simp [Event.isDial, Event.isVirtualStream]

/-- C2 fails as stated: on an adapter with a session, `DialContext` with a per-call option
negotiates with `gun.StreamGunWithConn` over the dialled connection 1, not with the TLS handshake
of `trojan.StreamConn`. -/
theorem option_dial_negotiation_counterexample :
    (sampleAdapter "grpc").transport ≠ none ∧
    ((sampleAdapter "grpc").DialContext Env.sample tcpTarget
        [dialer.DialOption.WithInterface "eth0"]).trace.filter Event.isNegotiation =
      [Event.StreamGunWithConn 1
        (some ⟨[], 0x0303, true, "proxy.example"⟩)
        (some ⟨"GunService", "proxy.example"⟩) none (.ok 11)] := by
  decide

/-- C2, amended: on an adapter with a session, a dial made with at least one per-call option
skips the shared session, for `DialContext` and for `ListenPacketContext`: no virtual stream is
opened and one TCP connection is dialled through the dialer built from the options.  Over the
dialled connection `DialContext` runs the gun negotiation `gun.StreamGunWithConn` with the
adapter's gun configuration, and no TLS handshake of `trojan.StreamConn`. -/
theorem option_dial_skips_shared_session (env : Env) (t : TrojanMC) (metadata : C.Metadata)
    (opts : List dialer.DialOption) (hsession : t.transport ≠ none) (hopts : opts ≠ []) :
    ((t.DialContext env metadata opts).trace.any Event.isVirtualStream = false ∧
      (t.DialContext env metadata opts).trace.filter Event.isDial =
        [Event.DialContext (dialer.NewDialer (env.DialOptions t.toBase opts)) "tcp" t.addr
          (env.DialContext (dialer.NewDialer (env.DialOptions t.toBase opts)) "tcp" t.addr)]) ∧
    ((t.ListenPacketContext env metadata opts).trace.any Event.isVirtualStream = false ∧
      (t.ListenPacketContext env metadata opts).trace.filter Event.isDial =
        [Event.DialContext (dialer.NewDialer (env.DialOptions t.toBase opts)) "tcp" t.addr
          (env.DialContext (dialer.NewDialer (env.DialOptions t.toBase opts)) "tcp"
            t.addr)]) ∧
    (∀ c, env.DialContext (dialer.NewDialer (env.DialOptions t.toBase opts)) "tcp" t.addr
        = .ok c →
      (t.DialContext env metadata opts).trace.filter Event.isNegotiation =
        [Event.StreamGunWithConn c t.gunTLSConfig t.gunConfig t.realityConfig
          (env.StreamGunWithConn c t.gunTLSConfig t.gunConfig t.realityConfig)]) := by
  have h : ¬ (t.transport ≠ none ∧ opts = []) := fun hh => hopts hh.2
  obtain ⟨h1, h2⟩ := fresh_dial_events env t metadata opts h
  refine ⟨h1, h2, fun c hd => ?_⟩
  rw [DialContext_fresh env t metadata opts h,
    DialContextWithDialer_negotiation env t _ metadata c hd]
  exact StreamConnContext_gun env t c metadata hsession

/-- C2, amended, at a concrete input: the sample adapter with a session and one option. -/
theorem option_dial_skips_shared_session_witness :
    (sampleAdapter "grpc").transport ≠ none ∧
    [dialer.DialOption.WithInterface "eth0"] ≠ [] ∧
    ((sampleAdapter "grpc").DialContext Env.sample tcpTarget
        [dialer.DialOption.WithInterface "eth0"]).trace.any Event.isVirtualStream = false :=
  ⟨by decide, by decide,
    (option_dial_skips_shared_session Env.sample (sampleAdapter "grpc") tcpTarget
      [dialer.DialOption.WithInterface "eth0"] (by decide) (by decide)).1.1⟩

/-- C6, at the failing input: on the sample adapter with a session, a dial with one per-call
option for the same target dials the same connection 1 on both operations, then `DialContext`
negotiates gun over it (`gun.StreamGunWithConn`, stream 11) while `ListenPacketContext` runs the
TLS handshake of `trojan.StreamConn` (stream 21): the two do not follow the same path. -/
theorem ListenPacketContext_negotiation_differs :
    (sampleAdapter "grpc").transport ≠ none ∧
    ((sampleAdapter "grpc").DialContext Env.sample udpTarget
        [dialer.DialOption.WithInterface "eth0"]).trace =
      [Event.DialContext ⟨[dialer.DialOption.WithInterface "eth0"]⟩ "tcp" "proxy.example:443"
          (.ok 1),
        Event.tcpKeepAlive 1,
        Event.StreamGunWithConn 1 (some ⟨[], 0x0303, true, "proxy.example"⟩)
          (some ⟨"GunService", "proxy.example"⟩) none (.ok 11),
        Event.WriteHeader 11 .CommandUDP (Env.sample.serializesSocksAddr udpTarget) none] ∧
    ((sampleAdapter "grpc").ListenPacketContext Env.sample udpTarget
        [dialer.DialOption.WithInterface "eth0"]).trace =
      [Event.DialContext ⟨[dialer.DialOption.WithInterface "eth0"]⟩ "tcp" "proxy.example:443"
          (.ok 1),
        Event.tcpKeepAlive 1,
        Event.StreamConn (sampleAdapter "grpc").inst 1 (.ok 21),
        Event.WriteHeader 21 .CommandUDP (Env.sample.serializesSocksAddr udpTarget) none] := by
  decide

/-- On every adapter with a session whose network is not `"ws"` (as `NewTrojanMC` builds them,
from network `"grpc"`), a dial with a per-call option that connects negotiates gun in
`DialContext` and Plain TLS in `ListenPacketContext`. -/
theorem session_option_negotiations (env : Env) (t : TrojanMC) (metadata : C.Metadata)
    (opts : List dialer.DialOption) (c : NetConn) (hsession : t.transport ≠ none)
    (hnet : t.option.Network ≠ "ws") (hopts : opts ≠ [])
    (hd : env.DialContext (dialer.NewDialer (env.DialOptions t.toBase opts)) "tcp" t.addr
      = .ok c) :
    (t.DialContext env metadata opts).trace.filter Event.isNegotiation =
      [Event.StreamGunWithConn c t.gunTLSConfig t.gunConfig t.realityConfig
        (env.StreamGunWithConn c t.gunTLSConfig t.gunConfig t.realityConfig)] ∧
    (t.ListenPacketContext env metadata opts).trace.filter Event.isNegotiation =
      [Event.StreamConn t.inst c (env.StreamConn t.inst c)] := by
  have h : ¬ (t.transport ≠ none ∧ opts = []) := fun hh => hopts hh.2
  constructor
  · rw [DialContext_fresh env t metadata opts h,
      DialContextWithDialer_negotiation env t _ metadata c hd]
    exact StreamConnContext_gun env t c metadata hsession
  · rw [ListenPacketContext_fresh env t metadata opts h,
      ListenPacketWithDialer_negotiation env t _ metadata c hd, plainStream_plain env t c hnet]
    simp [Event.isNegotiation]

/-! ## The late-bound client fingerprint -/

/-- The adapter `StreamConnContext` leaves behind is the one its first statement makes. -/
theorem StreamConnContext_adapter (env : Env) (t : TrojanMC) (c : NetConn)
    (metadata : C.Metadata) :
    (t.StreamConnContext env c metadata).adapter = t.lateBound env := by
  obtain ⟨e, r, -, heq⟩ := StreamConnContext_shape env t c metadata
  rw [heq]
  cases r <;> rfl

/-- C8 fails as stated: the sample adapter specifies no client fingerprint; a dial made while
the process-wide default is `"chrome"` changes the adapter's stored endpoint options, and a second
dial on the same adapter, made after the default has become `"firefox"`, still has `"chrome"`. -/
theorem fingerprint_default_counterexample :
    (sampleAdapter "tcp").option.ClientFingerprint = "" ∧
    ((sampleAdapter "tcp").DialContext (Env.withGlobalFingerprint "chrome") tcpTarget
        []).adapter.option ≠ (sampleAdapter "tcp").option ∧
    ((sampleAdapter "tcp").DialContext (Env.withGlobalFingerprint "chrome") tcpTarget
        []).adapter.option.ClientFingerprint = "chrome" ∧
    ((Env.withGlobalFingerprint "firefox").HaveGlobalFingerprint = true ∧
      (Env.withGlobalFingerprint "firefox").GetGlobalFingerprint = "firefox") ∧
    ((((sampleAdapter "tcp").DialContext (Env.withGlobalFingerprint "chrome") tcpTarget
        []).adapter).DialContext (Env.withGlobalFingerprint "firefox") tcpTarget
        []).adapter.option.ClientFingerprint = "chrome" := by
  decide

/-- C8, amended: a `DialContext` that takes the fresh-dial path and connects reads the
process-wide default client fingerprint as it stands at that time and, when a default is set and
the adapter's stored option has none, assigns it to the stored `t.option.ClientFingerprint`,
changing nothing else of the adapter.  Once the stored fingerprint is non-empty, or while no
default is set, such a dial leaves the adapter unchanged, whatever the default is.  A dial on the
shared session, a dial whose connect fails, and every `ListenPacketContext` leave the adapter
unchanged and do not read the default. -/
theorem fingerprint_default_stored_at_dial (env : Env) (t : TrojanMC) (metadata : C.Metadata)
    (opts : List dialer.DialOption) :
    (∀ c, ¬ (t.transport ≠ none ∧ opts = []) →
      env.DialContext (dialer.NewDialer (env.DialOptions t.toBase opts)) "tcp" t.addr = .ok c →
      (env.HaveGlobalFingerprint = true ∧ len t.option.ClientFingerprint = 0 →
        (t.DialContext env metadata opts).adapter =
          { t with option := { t.option with ClientFingerprint := env.GetGlobalFingerprint } }) ∧
      (¬ (env.HaveGlobalFingerprint = true ∧ len t.option.ClientFingerprint = 0) →
        (t.DialContext env metadata opts).adapter = t)) ∧
    ((t.transport ≠ none ∧ opts = []) → (t.DialContext env metadata opts).adapter = t) ∧
    (∀ err,
      env.DialContext (dialer.NewDialer (env.DialOptions t.toBase opts)) "tcp" t.addr
        = .error err →
      (t.DialContext env metadata opts).adapter = t) ∧
    (t.ListenPacketContext env metadata opts).adapter = t := by
  refine ⟨fun c h hd => ?_, fun h => ?_, fun err hd => ?_, ?_⟩
  · have ha : (t.DialContext env metadata opts).adapter = t.lateBound env := by
      rw [DialContext_fresh env t metadata opts h]
      unfold TrojanMC.DialContextWithDialer
      rw [hd]
      exact StreamConnContext_adapter env t c metadata
    rw [ha]
    unfold TrojanMC.lateBound
    exact ⟨fun hh => by rw [if_pos hh], fun hh => by rw [if_neg hh]⟩
  · obtain ⟨htr, rfl⟩ := h
    obtain ⟨tr, htr⟩ := Option.ne_none_iff_exists'.mp htr
    rcases DialContext_shared env t metadata tr htr with
      ⟨err, hg, heq⟩ | ⟨c, err, hg, heq⟩ | ⟨c, hg, heq⟩ <;> rw [heq]
  · by_cases h : t.transport ≠ none ∧ opts = []
    · obtain ⟨htr, rfl⟩ := h
      obtain ⟨tr, htr⟩ := Option.ne_none_iff_exists'.mp htr
      rcases DialContext_shared env t metadata tr htr with
        ⟨err, hg, heq⟩ | ⟨c, err, hg, heq⟩ | ⟨c, hg, heq⟩ <;> rw [heq]
    · rw [DialContext_fresh env t metadata opts h]
      unfold TrojanMC.DialContextWithDialer
      rw [hd]
  · by_cases h : t.transport ≠ none ∧ opts = []
    · obtain ⟨htr, rfl⟩ := h
      obtain ⟨tr, htr⟩ := Option.ne_none_iff_exists'.mp htr
      rcases ListenPacketContext_shared env t metadata tr htr with
        ⟨err, hg, heq⟩ | ⟨c, err, hg, heq⟩ | ⟨c, hg, heq⟩ <;> rw [heq]
    · rw [ListenPacketContext_fresh env t metadata opts h]
      rcases ListenPacketWithDialer_shape env t
          (dialer.NewDialer (env.DialOptions t.toBase opts))
          metadata with ⟨err, hd, heq⟩ | ⟨c, e, err, hd, hn, heq⟩ |
          ⟨c, e, c1, err, hd, hn, heq⟩ | ⟨c, e, c1, hd, hn, heq⟩ <;> rw [heq]

/-- C8, amended, at a concrete input: the first dial of the sample adapter while the default is
`"chrome"` stores `"chrome"`. -/
theorem fingerprint_default_stored_at_dial_witness :
    ((Env.withGlobalFingerprint "chrome").HaveGlobalFingerprint = true ∧
      len (sampleAdapter "tcp").option.ClientFingerprint = 0) ∧
    ((sampleAdapter "tcp").DialContext (Env.withGlobalFingerprint "chrome") tcpTarget
        []).adapter =
      { sampleAdapter "tcp" with
        option := { (sampleAdapter "tcp").option with
          ClientFingerprint := (Env.withGlobalFingerprint "chrome").GetGlobalFingerprint } } :=
  ⟨by decide,
    ((fingerprint_default_stored_at_dial (Env.withGlobalFingerprint "chrome")
      (sampleAdapter "tcp") tcpTarget []).1 1 (by decide) (by decide)).1 (by decide)⟩

/-! ## The WebSocket upgrade request -/

theorem lookup_filter_ne (a b : String) (l : http.Header) (h : a ≠ b) :
    List.lookup a (l.filter (fun kv => kv.1 != b)) = List.lookup a l := by
  induction l with
  | nil => rfl
  | cons x xs ih =>
    obtain ⟨k, vs⟩ := x
    by_cases hk : k = b
    · subst hk
      have hak : (a == k) = false := by simpa using h
      simp [List.filter, List.lookup, hak, ih]
    · have hkb : (k != b) = true := by simpa using hk
      simp only [List.filter, hkb, List.lookup]
      rw [ih]

/-- The values under a key after `Add`: the added value comes last under the added key (keys
compared in canonical form), every other key keeps its values. -/
theorem Values_Add (canon : String → String) (h : http.Header) (key value key' : String) :
    http.Header.Values canon (http.Header.Add canon h key value) key' =
      if canon key' = canon key then http.Header.Values canon h key ++ [value]
      else http.Header.Values canon h key' := by
  unfold http.Header.Values http.Header.Add
  by_cases hk : canon key' = canon key
  · rw [if_pos hk, hk]
    cases hl : List.lookup (canon key) h <;> simp [List.lookup]
  · rw [if_neg hk]
    have hb : (canon key' == canon key) = false := by simpa using hk
    cases hl : List.lookup (canon key) h with
    | none => simp [List.lookup, hb]
    | some vs => simp [List.lookup, hb, lookup_filter_ne _ _ h hk]

theorem Values_Add_mono (canon : String → String) (h : http.Header) (key value key' v : String)
    (hv : v ∈ http.Header.Values canon h key') :
    v ∈ http.Header.Values canon (http.Header.Add canon h key value) key' := by
  rw [Values_Add]
  split
  · rename_i hk
    have : http.Header.Values canon h key' = http.Header.Values canon h key := by
      unfold http.Header.Values; rw [hk]
    rw [← this]
    exact List.mem_append_left _ hv
  · exact hv

/-- After the `range` loop of `plainStream` every configured pair is among the values of its
key, and what was there before stays. -/
theorem Values_foldl_Add (canon : String → String) (l : List (String × String)) :
    ∀ h : http.Header,
      (∀ key v, v ∈ http.Header.Values canon h key →
        v ∈ http.Header.Values canon
          (l.foldl (fun h kv => http.Header.Add canon h kv.1 kv.2) h) key) ∧
      (∀ kv ∈ l, kv.2 ∈ http.Header.Values canon
          (l.foldl (fun h kv => http.Header.Add canon h kv.1 kv.2) h) kv.1) := by
  induction l with
  | nil => intro h; exact ⟨fun _ _ hv => hv, fun kv hkv => absurd hkv (List.not_mem_nil _)⟩
  | cons x xs ih =>
    intro h
    obtain ⟨ih1, ih2⟩ := ih (http.Header.Add canon h x.1 x.2)
    refine ⟨fun key v hv => ih1 key v (Values_Add_mono canon h x.1 x.2 key v hv), ?_⟩
    intro kv hkv
    rcases List.mem_cons.mp hkv with rfl | hmem
    · apply ih1
      rw [Values_Add, if_pos rfl]
      exact List.mem_append_right _ (List.mem_singleton.mpr rfl)
    · exact ih2 kv hmem

/-- What `NewTrojanMC` stores in an adapter it returns. -/
theorem NewTrojanMC_fields (env : Env) (option : TrojanOptionMC) (t : TrojanMC)
    (h : (NewTrojanMC env option).1 = some t) :
    t.option = option ∧ t.addr = env.JoinHostPort option.Server (Itoa option.Port) ∧
    (t.transport ≠ none ↔ option.Network = "grpc") := by
  unfold NewTrojanMC at h
  cases hp : env.Parse option.RealityOpts with
  | error err => rw [hp] at h; simp at h
  | ok rc =>
    rw [hp] at h
    simp only [] at h
    by_cases hg : option.Network = "grpc"
    · rw [if_pos hg] at h
      split at h
      · simp at h
      · simp only [Option.some.injEq] at h
        subst h
        simp [hg]
    · rw [if_neg hg] at h
      simp only [Option.some.injEq] at h
      subst h
      simp [hg]

/-- C9: for an adapter built by `NewTrojanMC` from an endpoint in WebSocket mode, the options
`plainStream` passes to the WebSocket upgrade (`StreamWebsocketConn`) have as `Host` the
configured SNI when it is non-empty and otherwise the host of the adapter's address
(`net.SplitHostPort` of `net.JoinHostPort(server, port)`), as `Path` the configured path, and
among the values of every configured header key, looked up as `http.Header.Values` does, the
configured value. -/
theorem websocket_upgrade_options (env : Env) (option : TrojanOptionMC) (t : TrojanMC)
    (c : NetConn) (hws : option.Network = "ws")
    (hnew : (NewTrojanMC env option).1 = some t) :
    ∃ wsOpts : trojan.WebsocketOption,
      t.plainStream env c =
        ([Event.StreamWebsocketConn t.inst c wsOpts (env.StreamWebsocketConn t.inst c wsOpts)],
          env.StreamWebsocketConn t.inst c wsOpts) ∧
      wsOpts.Host =
        (if option.SNI ≠ "" then option.SNI
         else (env.SplitHostPort (env.JoinHostPort option.Server (Itoa option.Port))).1) ∧
      wsOpts.Path = option.WSOpts.Path ∧
      ∀ kv ∈ option.WSOpts.Headers,
        kv.2 ∈ http.Header.Values env.CanonicalMIMEHeaderKey wsOpts.Headers kv.1 := by
  obtain ⟨hopt, haddr, -⟩ := NewTrojanMC_fields env option t hnew
  unfold TrojanMC.plainStream
  rw [hopt, haddr, if_pos hws]
  refine ⟨_, rfl, ?_, ?_, ?_⟩
  · by_cases hs : option.SNI ≠ "" <;> by_cases hh : option.WSOpts.Headers.length ≠ 0 <;>
      simp [hs, hh]
  · by_cases hs : option.SNI ≠ "" <;> by_cases hh : option.WSOpts.Headers.length ≠ 0 <;>
      simp [hs, hh]
  · intro kv hkv
    have hh : option.WSOpts.Headers.length ≠ 0 := by
      intro h0
      rw [List.length_eq_zero.mp h0] at hkv
      exact absurd hkv (List.not_mem_nil _)
    rw [if_pos hh]
    by_cases hs : option.SNI ≠ ""
    · rw [if_pos hs]
      exact (Values_foldl_Add env.CanonicalMIMEHeaderKey option.WSOpts.Headers []).2 kv hkv
    · rw [if_neg hs]
      exact (Values_foldl_Add env.CanonicalMIMEHeaderKey option.WSOpts.Headers []).2 kv hkv

/-- C9, at a concrete input: the sample endpoint in WebSocket mode. -/
theorem websocket_upgrade_options_witness :
    (sampleOption "ws").Network = "ws" ∧
    (NewTrojanMC Env.sample (sampleOption "ws")).1 = some (sampleAdapter "ws") ∧
    ∃ wsOpts : trojan.WebsocketOption,
      (sampleAdapter "ws").plainStream Env.sample 1 =
        ([Event.StreamWebsocketConn (sampleAdapter "ws").inst 1 wsOpts
            (Env.sample.StreamWebsocketConn (sampleAdapter "ws").inst 1 wsOpts)],
          Env.sample.StreamWebsocketConn (sampleAdapter "ws").inst 1 wsOpts) ∧
      wsOpts.Host =
        (if (sampleOption "ws").SNI ≠ "" then (sampleOption "ws").SNI
         else (Env.sample.SplitHostPort
           (Env.sample.JoinHostPort (sampleOption "ws").Server
             (Itoa (sampleOption "ws").Port))).1) ∧
      wsOpts.Path = (sampleOption "ws").WSOpts.Path ∧
      ∀ kv ∈ (sampleOption "ws").WSOpts.Headers,
        kv.2 ∈ http.Header.Values Env.sample.CanonicalMIMEHeaderKey wsOpts.Headers kv.1 :=
  ⟨rfl, by decide,
    websocket_upgrade_options Env.sample (sampleOption "ws") (sampleAdapter "ws") 1 rfl
      (by decide)⟩

/-! ## Construction -/

/-- C10 fails as stated: in the sample environment the certificate fingerprint `"zz"` is
invalid (`GetSpecifiedFingerprintTLSConfig` rejects it with every TLS configuration), yet for the
sample endpoint in WebSocket or plain mode with that fingerprint `NewTrojanMC` returns an adapter
and a nil error; and whatever the client-fingerprint id is, the sample endpoint in `"grpc"` mode
gets its adapter. -/
theorem NewTrojanMC_invalid_fingerprint_counterexample :
    (∀ cfg, Env.sample.GetSpecifiedFingerprintTLSConfig cfg "zz" =
      .error "fingerprint string is not valid hex") ∧
    (NewTrojanMC Env.sample { sampleOption "ws" with Fingerprint := "zz" }).1 ≠ none ∧
    (NewTrojanMC Env.sample { sampleOption "ws" with Fingerprint := "zz" }).2 = none ∧
    (NewTrojanMC Env.sample { sampleOption "tcp" with Fingerprint := "zz" }).1 ≠ none ∧
    (NewTrojanMC Env.sample { sampleOption "tcp" with Fingerprint := "zz" }).2 = none ∧
    (∀ id, (NewTrojanMC Env.sample { sampleOption "grpc" with ClientFingerprint := id }).1
        ≠ none ∧
      (NewTrojanMC Env.sample { sampleOption "grpc" with ClientFingerprint := id }).2
        = none) := by
  refine ⟨fun cfg => rfl, by decide, by decide, by decide, by decide, fun id => ?_⟩
  constructor
  · intro h
    cases h
  · rfl

/-- C10, amended: an endpoint whose anti-detection key-exchange parameters are invalid
(`RealityOptions.Parse` returns an error) is rejected by `NewTrojanMC` in every transport mode,
with that error and a nil adapter; an endpoint whose certificate fingerprint is invalid
(`ca.GetSpecifiedFingerprintTLSConfig` returns an error for it) is rejected by `NewTrojanMC`, with
an error and a nil adapter, when its network is `"grpc"`; in every other mode the fingerprint
is not examined at construction and an adapter is returned whenever the key-exchange parameters
parse.  The client-fingerprint id is examined in no mode: the error `NewTrojanMC` returns does
not depend on it. -/
theorem NewTrojanMC_rejects (env : Env) (option : TrojanOptionMC) :
    (∀ err, env.Parse option.RealityOpts = .error err →
      NewTrojanMC env option = (none, some err)) ∧
    (option.Network = "grpc" →
      (∀ cfg, ∃ err, env.GetSpecifiedFingerprintTLSConfig cfg option.Fingerprint = .error err) →
      (NewTrojanMC env option).1 = none ∧ (NewTrojanMC env option).2 ≠ none) ∧
    (option.Network ≠ "grpc" →
      ∀ rc, env.Parse option.RealityOpts = .ok rc →
        (NewTrojanMC env option).1 ≠ none ∧ (NewTrojanMC env option).2 = none) ∧
    (∀ id, (NewTrojanMC env { option with ClientFingerprint := id }).2 =
      (NewTrojanMC env option).2) := by
  refine ⟨fun err hp => ?_, fun hg hfp => ?_, fun hg rc hp => ?_, fun id => ?_⟩
  · unfold NewTrojanMC
    rw [hp]
  · unfold NewTrojanMC
    cases hp : env.Parse option.RealityOpts with
    | error err => simp
    | ok rc =>
      simp only [if_pos hg]
      split
      · simp
      · rename_i cfg hcfg
        obtain ⟨err, herr⟩ := hfp _
        rw [herr] at hcfg
        cases hcfg
  · unfold NewTrojanMC
    rw [hp]
    simp only [if_neg hg]
    simp
  · unfold NewTrojanMC
    simp only []
    cases hp : env.Parse option.RealityOpts with
    | error err => rfl
    | ok rc =>
      simp only []
      by_cases hg : option.Network = "grpc"
      · simp only [if_pos hg]
        by_cases hs : option.SNI ≠ ""
        · simp only [if_pos hs]
          split <;> rfl
        · simp only [if_neg hs]
          split <;> rfl
      · simp only [if_neg hg]

/-- C10, amended, at a concrete input: the invalid fingerprint `"zz"` in `"grpc"` mode. -/
theorem NewTrojanMC_rejects_witness :
    ({ sampleOption "grpc" with Fingerprint := "zz" } : TrojanOptionMC).Network = "grpc" ∧
    (∀ cfg, ∃ err, Env.sample.GetSpecifiedFingerprintTLSConfig cfg
      ({ sampleOption "grpc" with Fingerprint := "zz" } : TrojanOptionMC).Fingerprint
        = .error err) ∧
    (NewTrojanMC Env.sample { sampleOption "grpc" with Fingerprint := "zz" }).1 = none ∧
    (NewTrojanMC Env.sample { sampleOption "grpc" with Fingerprint := "zz" }).2 ≠ none :=
  ⟨rfl, fun _ => ⟨_, rfl⟩,
    (NewTrojanMC_rejects Env.sample { sampleOption "grpc" with Fingerprint := "zz" }).2.1 rfl
      (fun _ => ⟨_, rfl⟩)⟩
